import Mathlib

/-!
# Verification of `@lykmapipo/env` (`src/index.js`)

A shallow embedding of the environment-variable helper library.  The process
environment (after the one-time `.env` load) is modelled as a `Store`
(`String → Option String`): environment values are always strings or absent.
JavaScript values flowing through the coercion layer are modelled by `JSVal`
(undefined, string, number, boolean), with JavaScript numbers modelled by
`JSNum` (`NaN` or a rational).  External collaborators (lodash `toNumber`,
`toString`, `trim`, `uniq`, `compact`, `once`; `semver.coerce`;
`@lykmapipo/common`'s `sortedUniq`; `dotenv`) are modelled by their documented
behaviour on the value fragment this library exercises (decimal numeric
literals; JavaScript's float printing of non-integral numbers is out of scope
and never exercised by the statements below).
-/

namespace Env

/-- JavaScript numbers as used here: `NaN` or a rational value. -/
inductive JSNum where
  | nan : JSNum
  | val (q : ℚ) : JSNum
deriving DecidableEq, Repr

/-- The JavaScript values flowing through the coercion layer. -/
inductive JSVal where
  | undefined : JSVal
  | vstr (s : String) : JSVal
  | vnum (n : JSNum) : JSVal
  | vbool (b : Bool) : JSVal
deriving DecidableEq, Repr

/-- The process environment after loading: keys to string values. -/
def Store : Type := String → Option String

/-- Build a store from an association list (first binding wins). -/
def storeOf (pairs : List (String × String)) : Store :=
  fun k => List.lookup k pairs

/-- JavaScript truthiness: `undefined`, `false`, `0`, `NaN` and `""` are falsy. -/
def truthy : JSVal → Bool
  | .undefined => false
  | .vstr s => decide (s ≠ "")
  | .vnum .nan => false
  | .vnum (.val q) => decide (q ≠ 0)
  | .vbool b => b

/-- Digits to the natural number they denote. -/
def digitsToNat (cs : List Char) : Nat :=
  cs.foldl (fun n c => 10 * n + (c.toNat - 48)) 0

/-- ASCII whitespace (the fragment of JavaScript's trimmed characters used here). -/
def isWs (c : Char) : Bool := c = ' ' ∨ c = '\t' ∨ c = '\n' ∨ c = '\r'

/-- Drop leading and trailing whitespace from a character list. -/
def trimChars (cs : List Char) : List Char :=
  ((cs.dropWhile isWs).reverse.dropWhile isWs).reverse

/-- JavaScript `String.prototype.trim` (ASCII whitespace fragment). -/
def trimStr (s : String) : String := String.mk (trimChars s.toList)

/-- JavaScript `toLowerCase` (ASCII fragment), as used by lodash `toLower`. -/
def toLowerStr (s : String) : String := String.mk (s.toList.map Char.toLower)

/-- Split a character list on a separator character; like JavaScript
`split`, the empty input yields one empty token. -/
def splitCharList (sep : Char) : List Char → List (List Char)
  | [] => [[]]
  | c :: rest =>
      match splitCharList sep rest with
      | [] => [[]]
      | g :: gs => if c = sep then [] :: g :: gs else (c :: g) :: gs

/-- JavaScript `String.prototype.split` on a one-character separator. -/
def splitStr (sep : Char) (s : String) : List String :=
  (splitCharList sep s.toList).map String.mk

/-- Lexicographic `≤` on character lists, as a computable comparison. -/
def charListLe : List Char → List Char → Bool
  | [], _ => true
  | _ :: _, [] => false
  | a :: as, b :: bs => if a < b then true else if b < a then false else charListLe as bs

/-- Lexicographic `≤` on strings (JavaScript's default sort comparison). -/
def strLe (a b : String) : Bool := charListLe a.toList b.toList

/-- Parse an unsigned decimal literal (`"12"`, `"12.5"`, `".5"`, `"5."`). -/
def parseUnsignedDec (body : List Char) : Option ℚ :=
  match splitCharList '.' body with
  | [i] =>
      if i ≠ [] ∧ i.all Char.isDigit then
        some ((digitsToNat i : ℚ))
      else none
  | [i, f] =>
      if (i ≠ [] ∨ f ≠ []) ∧ i.all Char.isDigit ∧ f.all Char.isDigit then
        some ((digitsToNat i : ℚ) + (digitsToNat f : ℚ) / ((10 : ℚ) ^ f.length))
      else none
  | _ => none

/-- JavaScript `Number(string)` on the decimal fragment: trims, empty is `0`,
an optionally signed decimal literal is its value, anything else is `NaN`. -/
def strToNumber (s : String) : JSNum :=
  match trimChars s.toList with
  | [] => JSNum.val 0
  | c :: rest =>
      let body := if c = '-' ∨ c = '+' then rest else c :: rest
      match parseUnsignedDec body with
      | some q => JSNum.val (if c = '-' then -q else q)
      | none => JSNum.nan

/-- lodash `toNumber`: `undefined ↦ NaN`, booleans to `0`/`1`, strings parsed. -/
def toNumberJS : JSVal → JSNum
  | .undefined => .nan
  | .vbool b => .val (if b then 1 else 0)
  | .vnum n => n
  | .vstr s => strToNumber s

/-- Print a JavaScript number (integral values only are exercised). -/
def numToStr : JSNum → String
  | .nan => "NaN"
  | .val q => if q.den = 1 then toString q.num else toString q.num ++ "/" ++ toString q.den

/-- lodash `toString`: `undefined ↦ ""`, booleans and numbers to their text. -/
def toStringJS : JSVal → String
  | .undefined => ""
  | .vbool b => if b then "true" else "false"
  | .vnum n => numToStr n
  | .vstr s => s

/-- lodash `trim` of an arbitrary value: stringify, then trim whitespace. -/
def trimJS (v : JSVal) : String := trimStr (toStringJS v)

/-- lodash `toLower` of an arbitrary value: stringify, then lowercase. -/
def toLowerJS (v : JSVal) : String := toLowerStr (toStringJS v)

/-- Source `mapToNumber = value => toNumber(value)`. -/
def mapToNumber (value : JSVal) : JSVal := .vnum (toNumberJS value)

/-- Source `mapToString = value => toString(value)`. -/
def mapToString (value : JSVal) : JSVal := .vstr (toStringJS value)

/-- Source `get(key, defaultValue)`: the stored string if the key is present,
otherwise the default (`load()` has already seeded the store). -/
def get (env : Store) (key : String) (defaultValue : JSVal) : JSVal :=
  match env key with
  | some s => .vstr s
  | none => defaultValue

/-- Source `getNumber`: `get`, then coerce through `mapToNumber` only if truthy. -/
def getNumber (env : Store) (key : String) (defaultValue : JSVal) : JSVal :=
  let value := get env key defaultValue
  if truthy value then mapToNumber value else value

/-- Source `getString`: `get`, then coerce through `mapToString` only if truthy. -/
def getString (env : Store) (key : String) (defaultValue : JSVal) : JSVal :=
  let value := get env key defaultValue
  if truthy value then mapToString value else value

/-- Source `getBoolean`: literal `"false"`/`"true"` become booleans, then a
truthy value becomes `Boolean(value) = true`, a falsy one is returned as-is. -/
def getBoolean (env : Store) (key : String) (defaultValue : JSVal) : JSVal :=
  let value := get env key defaultValue
  let value := if value = .vstr "false" then JSVal.vbool false else value
  let value := if value = .vstr "true" then JSVal.vbool true else value
  if truthy value then JSVal.vbool true else value

/-- A `defaultValue` handed to `getArray`: a single value or an array.
`[].concat(defaultValue)` wraps a non-array (including `undefined`) in a
one-element array and keeps an array's elements. -/
inductive ArrDefault where
  | single (v : JSVal) : ArrDefault
  | arr (vs : List JSVal) : ArrDefault

/-- `[].concat(defaultValue)`. -/
def concatJS : ArrDefault → List JSVal
  | .single v => [v]
  | .arr vs => vs

/-- lodash `uniq` (first occurrence kept), with an accumulator of seen items. -/
def uniqAux (seen : List String) : List String → List String
  | [] => []
  | x :: xs => if x ∈ seen then uniqAux seen xs else x :: uniqAux (x :: seen) xs

/-- lodash `uniq`: deduplicate keeping the first occurrence. -/
def uniqJS (l : List String) : List String := uniqAux [] l

/-- lodash `compact` on a list of strings: drop falsy (empty) strings. -/
def compactJS (l : List String) : List String := l.filter (fun s => s ≠ "")

/-- Source `getArray`: concat the default, append the comma-split raw value
(`get(key, '')`) when the key is non-empty, trim, compact, deduplicate. -/
def getArray (env : Store) (key : String) (defaultValue : ArrDefault) : List String :=
  let value := concatJS defaultValue
  let value :=
    if key ≠ "" then
      value ++ (splitStr ',' (toStringJS (get env key (.vstr "")))).map JSVal.vstr
    else value
  uniqJS (compactJS (value.map trimJS))

/-- Source `getStrings`: `getArray`, then map each element through `mapToString`. -/
def getStrings (env : Store) (key : String) (defaultValue : ArrDefault) : List String :=
  (getArray env key defaultValue).map (fun s => toStringJS (.vstr s))

/-- `sortedUniq` of `@lykmapipo/common` (external collaborator): unique
elements in lexicographic order. -/
def sortedUniq (l : List String) : List String :=
  List.insertionSort (fun a b => strLe a b = true) (uniqJS l)

/-- Source `getStringSet`: `getStrings`, then `sortedUniq`. -/
def getStringSet (env : Store) (key : String) (defaultValue : ArrDefault) : List String :=
  sortedUniq (getStrings env key defaultValue)

/-- Source `is(env)`: case-insensitive comparison with `NODE_ENV` (no default). -/
def is (env : Store) (e : JSVal) : Bool :=
  decide (toLowerJS (get env "NODE_ENV" .undefined) = toLowerJS e)

/-- Source `isTest()`. -/
def isTest (env : Store) : Bool := is env (.vstr "test")

/-- Source `isDevelopment()`. -/
def isDevelopment (env : Store) : Bool := is env (.vstr "development")

/-- Source `isProduction()`. -/
def isProduction (env : Store) : Bool := is env (.vstr "production")

/-- Source `isLocal()`. -/
def isLocal (env : Store) : Bool := isTest env || isDevelopment env

/-- Leading digits of a character list, and the rest. -/
def spanDigits (cs : List Char) : List Char × List Char :=
  (cs.takeWhile Char.isDigit, cs.dropWhile Char.isDigit)

/-- A `.`-prefixed digit run, if present at the front (else nothing consumed). -/
def dotDigits (cs : List Char) : List Char × List Char :=
  match cs with
  | '.' :: rest =>
      let p := spanDigits rest
      if p.1 = [] then ([], cs) else p
  | _ => ([], cs)

/-- `semver.coerce` (external collaborator): find the first digit run as the
major part, then optional `.minor` and `.patch` runs; absent parts are `0`;
`none` when the string holds no digits at all. -/
def coerceSemver (s : String) : Option (Nat × Nat × Nat) :=
  let cs := s.toList.dropWhile (fun c => ¬ c.isDigit)
  let maj := spanDigits cs
  if maj.1 = [] then none
  else
    let mi := dotDigits maj.2
    let pa := dotDigits mi.2
    some (digitsToNat maj.1, digitsToNat mi.1, digitsToNat pa.1)

/-- Options of `apiVersion`; `none` fields are absent from `optns`, so lodash
`merge` keeps the defaults (`version='1.0.0'`, `prefix='v'`, `major=true`,
`minor=false`, `patch=false`).  The source's `prefix` field is named `pref`
here.  The `major` option is accepted but, as in the source, never read. -/
structure ApiOptns where
  version : Option String := none
  pref : Option String := none
  major : Option Bool := none
  minor : Option Bool := none
  patch : Option Bool := none

/-- Source `apiVersion`: coerce `getString('API_VERSION', version)` to a
semantic version and format it.  `semver.coerce` yields `null` on an
uncoercible string, and the source then reads `.major` of `null`, which raises
a `TypeError`; that raised error is modelled as `Except.error`. -/
def apiVersion (env : Store) (optns : ApiOptns) : Except String String :=
  let version := optns.version.getD "1.0.0"
  let pref := optns.pref.getD "v"
  let minor := optns.minor.getD false
  let patch := optns.patch.getD false
  match coerceSemver (toStringJS (getString env "API_VERSION" (.vstr version))) with
  | none => Except.error "TypeError: cannot read property major of null"
  | some (ma, mi, pa) =>
      let v0 := toString ma
      let v1 := if minor then toString ma ++ "." ++ toString mi else v0
      let v2 := if patch then toString ma ++ "." ++ toString mi ++ "." ++ toString pa else v1
      Except.ok (pref ++ v2)

/-- Source `getLocale`: the detected OS locale (`osloc`; `""` models a failed
detection, the falsy result of both `osLocale()` calls) or the default, then a
`DEFAULT_LOCALE` store override through `getString`. -/
def getLocale (env : Store) (osloc : String) (defaultLocale : String := "sw") : String :=
  let locale := if osloc ≠ "" then osloc else defaultLocale
  toStringJS (getString env "DEFAULT_LOCALE" (.vstr locale))

/-- Source `getCountryCode`: the default, replaced by the last `_`-segment of
the locale when that split is non-trivial, then by the last `-`-segment when
that split is non-trivial, then a `DEFAULT_COUNTRY_CODE` store override. -/
def getCountryCode (env : Store) (osloc : String) (defaultCountryCode : String := "TZ") : String :=
  let countryCode := defaultCountryCode
  let countryCode :=
    if (splitStr '_' (getLocale env osloc)).length > 1 then
      (splitStr '_' (getLocale env osloc)).getLastD countryCode
    else countryCode
  let countryCode :=
    if (splitStr '-' (getLocale env osloc)).length > 1 then
      (splitStr '-' (getLocale env osloc)).getLastD countryCode
    else countryCode
  toStringJS (getString env "DEFAULT_COUNTRY_CODE" (.vstr countryCode))

/-- The result of `dotenv.config`: parsed pairs, or an error. -/
structure DotenvResult where
  parsed : List (String × String)
  failure : Option String
deriving DecidableEq, Repr

/-- Process-wide state for the memoized `load`: the memo cell of lodash
`once`, plus a count of the file reads performed (for the at-most-once
invariant). -/
structure EnvProcess where
  envLoaded : Option DotenvResult
  fileReads : Nat
deriving DecidableEq, Repr

/-- Source `load = once(() => ... dotenv.config ...)`: on the first call run
the file read and memoize its result; afterwards return the memo untouched. -/
def runLoad (readEnvFile : Unit → DotenvResult) (s : EnvProcess) : DotenvResult × EnvProcess :=
  match s.envLoaded with
  | some r => (r, s)
  | none =>
      let r := readEnvFile ()
      (r, { envLoaded := some r, fileReads := s.fileReads + 1 })

/-- Call `load` `n` times in sequence, keeping only the state. -/
def iterLoad (readEnvFile : Unit → DotenvResult) : Nat → EnvProcess → EnvProcess
  | 0, s => s
  | n + 1, s => iterLoad readEnvFile n (runLoad readEnvFile s).2

/-- Spec-side reference for `getArray` (for the refinement statement of the
spec's wording): the default contributes zero-or-more items (`undefined`
nothing, a scalar one item), the comma-split tokens of the raw store string
are appended, every token is trimmed, empty tokens are dropped, and
duplicates are removed keeping first-seen order. -/
def defaultItemsSpec : ArrDefault → List JSVal
  | .single .undefined => []
  | .single v => [v]
  | .arr vs => vs

/-- Spec-side reference implementation of `getArray` on a non-empty key. -/
def getArraySpec (env : Store) (key : String) (defaultValue : ArrDefault) : List String :=
  let items :=
    defaultItemsSpec defaultValue ++
      (splitStr ',' (toStringJS (get env key (.vstr "")))).map JSVal.vstr
  uniqJS (compactJS (items.map trimJS))

/-! ## Helper lemmas -/

theorem trimJS_undefined : trimJS .undefined = "" := rfl

theorem uniqAux_mem : ∀ (l seen : List String) (x : String),
    x ∈ uniqAux seen l ↔ x ∈ l ∧ x ∉ seen
  | [], seen, x => by simp [uniqAux]
  | a :: l, seen, x => by
      by_cases ha : a ∈ seen
      · simp only [uniqAux, if_pos ha, uniqAux_mem l seen x, List.mem_cons]
        constructor
        · exact fun h => ⟨Or.inr h.1, h.2⟩
        · rintro ⟨h | h, hns⟩
          · exact absurd (h ▸ ha) hns
          · exact ⟨h, hns⟩
      · simp only [uniqAux, if_neg ha, List.mem_cons, uniqAux_mem l (a :: seen) x]
        constructor
        · rintro (rfl | ⟨hl, hnotin⟩)
          · exact ⟨Or.inl rfl, ha⟩
          · exact ⟨Or.inr hl, fun hs => hnotin (Or.inr hs)⟩
        · rintro ⟨rfl | hl, hns⟩
          · exact Or.inl rfl
          · by_cases hxa : x = a
            · exact Or.inl hxa
            · exact Or.inr ⟨hl, by simp [List.mem_cons, hxa, hns]⟩

theorem uniqAux_nodup : ∀ (l seen : List String), (uniqAux seen l).Nodup
  | [], seen => by simp [uniqAux]
  | a :: l, seen => by
      by_cases ha : a ∈ seen
      · simpa [uniqAux, ha] using uniqAux_nodup l seen
      · simp only [uniqAux, if_neg ha]
        refine List.nodup_cons.mpr ⟨?_, uniqAux_nodup l (a :: seen)⟩
        intro hmem
        exact ((uniqAux_mem l (a :: seen) a).mp hmem).2 (List.mem_cons_self a seen)

theorem uniqJS_mem (l : List String) (x : String) : x ∈ uniqJS l ↔ x ∈ l := by
  simp [uniqJS, uniqAux_mem]

theorem uniqJS_nodup (l : List String) : (uniqJS l).Nodup := uniqAux_nodup l []

theorem charListLe_refl : ∀ cs : List Char, charListLe cs cs = true
  | [] => rfl
  | c :: cs => by simp [charListLe, lt_irrefl, charListLe_refl cs]

theorem charListLe_of_lex {as bs : List Char} (h : List.Lex (· < ·) as bs) :
    charListLe as bs = true := by
  induction h with
  | nil => rfl
  | @cons a l1 l2 h ih => simp [charListLe, lt_irrefl, ih]
  | @rel a1 l1 a2 l2 h => simp [charListLe, h]

theorem charListLe_false_of_lex {as bs : List Char} (h : List.Lex (· < ·) bs as) :
    charListLe as bs = false := by
  induction h with
  | nil => rfl
  | @cons a l1 l2 h ih => simp [charListLe, lt_irrefl, ih]
  | @rel a1 l1 a2 l2 h =>
      show charListLe (a2 :: l2) (a1 :: l1) = false
      rw [charListLe]
      rw [if_neg (asymm h), if_pos h]

theorem strLe_iff (a b : String) : strLe a b = true ↔ a ≤ b := by
  constructor
  · intro h
    by_contra hnle
    have hlt : b < a := lt_of_not_le hnle
    have hfalse : strLe a b = false :=
      charListLe_false_of_lex (String.lt_iff_toList_lt.mp hlt)
    rw [hfalse] at h
    cases h
  · intro h
    rcases lt_or_eq_of_le h with hlt | heq
    · exact charListLe_of_lex (String.lt_iff_toList_lt.mp hlt)
    · subst heq
      exact charListLe_refl a.toList

theorem strLe_total (a b : String) : strLe a b = true ∨ strLe b a = true := by
  rcases le_total a b with h | h
  · exact Or.inl ((strLe_iff a b).mpr h)
  · exact Or.inr ((strLe_iff b a).mpr h)

theorem strLe_trans {a b c : String} (h1 : strLe a b = true) (h2 : strLe b c = true) :
    strLe a c = true :=
  (strLe_iff a c).mpr (le_trans ((strLe_iff a b).mp h1) ((strLe_iff b c).mp h2))

instance instIsTotalStrLe : IsTotal String (fun a b => strLe a b = true) :=
  ⟨strLe_total⟩

instance instIsTransStrLe : IsTrans String (fun a b => strLe a b = true) :=
  ⟨fun _ _ _ => strLe_trans⟩

theorem runLoad_some (f : Unit → DotenvResult) (s : EnvProcess) (r : DotenvResult)
    (h : s.envLoaded = some r) : runLoad f s = (r, s) := by
  simp [runLoad, h]

theorem runLoad_loaded (f : Unit → DotenvResult) (s : EnvProcess) :
    ∃ r, (runLoad f s).2.envLoaded = some r := by
  cases h : s.envLoaded with
  | some r => exact ⟨r, by simp [runLoad, h]⟩
  | none => exact ⟨f (), by simp [runLoad, h]⟩

theorem runLoad_fileReads (f : Unit → DotenvResult) (s : EnvProcess) :
    (runLoad f s).2.fileReads ≤ s.fileReads + 1 := by
  cases h : s.envLoaded <;> simp [runLoad, h]

theorem iterLoad_some (f : Unit → DotenvResult) (n : Nat) :
    ∀ (s : EnvProcess) (r : DotenvResult), s.envLoaded = some r → iterLoad f n s = s := by
  induction n with
  | zero => intro s r h; rfl
  | succ n ih =>
      intro s r h
      have hs : (runLoad f s).2 = s := by rw [runLoad_some f s r h]
      simp only [iterLoad, hs]
      exact ih s r h

/-! ## Claims -/

/-- C1: `get(key, d)` returns `d` exactly when `key` is absent from the store;
when the key is present the stored string is returned as-is — even a falsy
one such as `""` or `"0"` — with no coercion applied. -/
theorem get_default_iff_absent (env : Store) (key : String) (d : JSVal) :
    (env key = none → get env key d = d) ∧
    ∀ s : String, env key = some s → get env key d = JSVal.vstr s := by
  refine ⟨fun h => ?_, fun s h => ?_⟩ <;> simp [get, h]

/-- C1 witness: an absent key yields the default; present falsy values
(`""`, `"0"`) are returned as stored, not replaced by the default. -/
theorem get_default_iff_absent_witness :
    get (storeOf []) "K" (.vstr "dflt") = .vstr "dflt" ∧
    get (storeOf [("K", "")]) "K" (.vstr "dflt") = .vstr "" ∧
    get (storeOf [("Z", "0")]) "Z" (.vstr "dflt") = .vstr "0" :=
  ⟨(get_default_iff_absent (storeOf []) "K" (.vstr "dflt")).1 (by decide),
   (get_default_iff_absent (storeOf [("K", "")]) "K" (.vstr "dflt")).2 "" (by decide),
   (get_default_iff_absent (storeOf [("Z", "0")]) "Z" (.vstr "dflt")).2 "0" (by decide)⟩

/-- C5: the bulk-load effect runs at most once per process: a second `load`
call returns the first call's memoized result and leaves the state unchanged,
and any number of calls performs at most one file read. -/
theorem load_runs_once (readEnvFile : Unit → DotenvResult) (s : EnvProcess) :
    runLoad readEnvFile (runLoad readEnvFile s).2 =
      ((runLoad readEnvFile s).1, (runLoad readEnvFile s).2) ∧
    ∀ n : Nat, (iterLoad readEnvFile n s).fileReads ≤ s.fileReads + 1 := by
  constructor
  · cases h : s.envLoaded with
    | some r => simp [runLoad, h]
    | none => simp [runLoad, h]
  · intro n
    cases n with
    | zero => exact Nat.le_succ s.fileReads
    | succ n =>
        obtain ⟨r, hr⟩ := runLoad_loaded readEnvFile s
        have h1 : iterLoad readEnvFile (n + 1) s =
            iterLoad readEnvFile n (runLoad readEnvFile s).2 := rfl
        rw [h1, iterLoad_some readEnvFile n (runLoad readEnvFile s).2 r hr]
        exact runLoad_fileReads readEnvFile s

/-- C7: `getNumber` and `getString` run their coercer (`mapToNumber` /
`mapToString`) only when the value resolved by `get` is truthy; a falsy
resolved value — explicit `""` or `0` default, or `undefined` when both key
and default are absent — is returned unchanged, uncoerced. -/
theorem getNumber_getString_truthy_gate (env : Store) (key : String) (d : JSVal) :
    getNumber env key d =
      (if truthy (get env key d) then mapToNumber (get env key d) else get env key d) ∧
    getString env key d =
      (if truthy (get env key d) then mapToString (get env key d) else get env key d) ∧
    getNumber (storeOf []) "K" (.vstr "") = .vstr "" ∧
    getNumber (storeOf []) "K" .undefined = .undefined ∧
    getNumber (storeOf [("K", "42")]) "K" .undefined = .vnum (.val 42) ∧
    getString (storeOf []) "K" (.vnum (.val 0)) = .vnum (.val 0) ∧
    getString (storeOf [("K", "x")]) "K" .undefined = .vstr "x" := by
  refine ⟨rfl, rfl, ?_, ?_, ?_, ?_, ?_⟩ <;> decide

/-- C10: with `NODE_ENV` absent, `is` compares `toLower(undefined) = ""`
against `toLower(name)`: `is('')` and `is(undefined)` are true, while
`isTest`, `isDevelopment`, `isProduction` and `isLocal` are all false. -/
theorem is_absent_node_env (env : Store) (h : env "NODE_ENV" = none) :
    is env (.vstr "") = true ∧
    is env .undefined = true ∧
    isTest env = false ∧
    isDevelopment env = false ∧
    isProduction env = false ∧
    isLocal env = false := by
  simp only [is, isTest, isDevelopment, isProduction, isLocal, get, h]
  decide

/-- C10 witness: the empty store has no `NODE_ENV`. -/
theorem is_absent_node_env_witness :
    is (storeOf []) (.vstr "") = true ∧
    is (storeOf []) .undefined = true ∧
    isTest (storeOf []) = false ∧
    isDevelopment (storeOf []) = false ∧
    isProduction (storeOf []) = false ∧
    isLocal (storeOf []) = false :=
  is_absent_node_env (storeOf []) rfl

/-- C8: `getBoolean` maps the literal resolved string `"false"` to `false`
and `"true"` to `true`, coerces any other truthy resolved value to `true` by
truthiness, and returns any falsy resolved value (including `false` itself)
unchanged. -/
theorem getBoolean_literals_truthiness (env : Store) (key : String) (d : JSVal) :
    (get env key d = .vstr "false" → getBoolean env key d = .vbool false) ∧
    (get env key d = .vstr "true" → getBoolean env key d = .vbool true) ∧
    (get env key d ≠ .vstr "false" → get env key d ≠ .vstr "true" →
      truthy (get env key d) = true → getBoolean env key d = .vbool true) ∧
    (truthy (get env key d) = false → getBoolean env key d = get env key d) := by
  refine ⟨fun h => ?_, fun h => ?_, fun h1 h2 h3 => ?_, fun h => ?_⟩
  · simp [getBoolean, h, truthy]
  · simp [getBoolean, h, truthy]
  · simp [getBoolean, h1, h2, h3]
  · have h1 : get env key d ≠ .vstr "false" := by
      intro hc
      rw [hc] at h
      simp [truthy] at h
    have h2 : get env key d ≠ .vstr "true" := by
      intro hc
      rw [hc] at h
      simp [truthy] at h
    simp [getBoolean, h1, h2, h]

/-- C8 witness: `"false"` and `"true"` literals, a truthy `"yes"`, and an
absent key with default `false`. -/
theorem getBoolean_literals_truthiness_witness :
    getBoolean (storeOf [("F", "false")]) "F" .undefined = .vbool false ∧
    getBoolean (storeOf [("T", "true")]) "T" .undefined = .vbool true ∧
    getBoolean (storeOf [("K", "yes")]) "K" .undefined = .vbool true ∧
    getBoolean (storeOf []) "K" (.vbool false) = .vbool false :=
  ⟨(getBoolean_literals_truthiness (storeOf [("F", "false")]) "F" .undefined).1 (by decide),
   (getBoolean_literals_truthiness (storeOf [("T", "true")]) "T" .undefined).2.1 (by decide),
   (getBoolean_literals_truthiness (storeOf [("K", "yes")]) "K" .undefined).2.2.1
     (by decide) (by decide) (by decide),
   (getBoolean_literals_truthiness (storeOf []) "K" (.vbool false)).2.2.2 (by decide)⟩

/-- C3: on a non-empty key, `getArray` computes exactly the spec's pipeline —
default items (nothing for `undefined`, one item for a scalar) plus the
comma-split tokens of the raw store string, trimmed, emptied of falsy tokens
and deduplicated in first-seen order; on `Store['K'] = "a, a, ,b"` it yields
`['a','b']`. -/
theorem getArray_pipeline (env : Store) (key : String) (d : ArrDefault) (hk : key ≠ "") :
    getArray env key d = getArraySpec env key d ∧
    getArray (storeOf [("K", "a, a, ,b")]) "K" (.single .undefined) = ["a", "b"] := by
  constructor
  · cases d with
    | arr vs => simp [getArray, getArraySpec, hk, concatJS, defaultItemsSpec]
    | single v =>
        cases v with
        | undefined =>
            simp [getArray, getArraySpec, hk, concatJS, defaultItemsSpec, compactJS, trimJS_undefined]
        | vstr s => simp [getArray, getArraySpec, hk, concatJS, defaultItemsSpec]
        | vnum n => simp [getArray, getArraySpec, hk, concatJS, defaultItemsSpec]
        | vbool b => simp [getArray, getArraySpec, hk, concatJS, defaultItemsSpec]
  · decide

/-- C3 witness: the pipeline equality and the example at the concrete store. -/
theorem getArray_pipeline_witness :
    getArray (storeOf [("K", "a, a, ,b")]) "K" (.single .undefined) =
      getArraySpec (storeOf [("K", "a, a, ,b")]) "K" (.single .undefined) ∧
    getArray (storeOf [("K", "a, a, ,b")]) "K" (.single .undefined) = ["a", "b"] :=
  getArray_pipeline (storeOf [("K", "a, a, ,b")]) "K" (.single .undefined) (by decide)

/-- C9: `getCountryCode` takes the last `_`-segment of the locale when that
split is non-trivial, then the last `-`-segment (hyphen wins when both split),
falls back to the default when neither splits, and a non-empty
`DEFAULT_COUNTRY_CODE` store override supersedes everything. -/
theorem getCountryCode_derivation (env : Store) (osloc : String) (d : String)
    (c : String) (hc : env "DEFAULT_COUNTRY_CODE" = some c) (hcne : c ≠ "") :
    getCountryCode env osloc d = c ∧
    getCountryCode (storeOf []) "en_US" "TZ" = "US" ∧
    getCountryCode (storeOf []) "en-GB" "TZ" = "GB" ∧
    getCountryCode (storeOf []) "en_US-x" "TZ" = "x" ∧
    ∀ d2 : String, getCountryCode (storeOf []) "sw" d2 = d2 := by
  refine ⟨?_, by decide, by decide, by decide, ?_⟩
  · simp [getCountryCode, getString, get, hc, truthy, hcne, mapToString, toStringJS]
  · intro d2
    by_cases h2 : d2 = ""
    · subst h2; decide
    · simp [getCountryCode, getLocale, getString, get, truthy, h2, mapToString, toStringJS,
        splitStr, splitCharList, storeOf]

/-- C9 witness: a `DEFAULT_COUNTRY_CODE='KE'` override wins over the locale. -/
theorem getCountryCode_derivation_witness :
    getCountryCode (storeOf [("DEFAULT_COUNTRY_CODE", "KE")]) "en_US" "TZ" = "KE" :=
  (getCountryCode_derivation (storeOf [("DEFAULT_COUNTRY_CODE", "KE")]) "en_US" "TZ" "KE"
    (by decide) (by decide)).1

/-- C6: `getStringSet` returns a lexicographically sorted, duplicate-free
sequence of exactly the strings produced by `getStrings`; on
`Store['K'] = "b,a,a"` it yields `['a','b']`. -/
theorem getStringSet_sorted_dedup (env : Store) (key : String) (d : ArrDefault) :
    List.Sorted (· < ·) (getStringSet env key d) ∧
    (getStringSet env key d).Nodup ∧
    (∀ s : String, s ∈ getStringSet env key d ↔ s ∈ getStrings env key d) ∧
    getStringSet (storeOf [("K", "b,a,a")]) "K" (.single .undefined) = ["a", "b"] := by
  have hperm : List.Perm (getStringSet env key d) (uniqJS (getStrings env key d)) :=
    List.perm_insertionSort (fun a b => strLe a b = true) (uniqJS (getStrings env key d))
  have hnd : (getStringSet env key d).Nodup :=
    hperm.nodup_iff.mpr (uniqJS_nodup (getStrings env key d))
  have hsorted : List.Sorted (fun a b => strLe a b = true) (getStringSet env key d) :=
    List.sorted_insertionSort (fun a b => strLe a b = true) (uniqJS (getStrings env key d))
  have hle : List.Sorted (· ≤ ·) (getStringSet env key d) :=
    hsorted.imp (fun hab => (strLe_iff _ _).mp hab)
  exact ⟨hle.lt_of_le hnd, hnd,
    fun s => (hperm.mem_iff).trans (uniqJS_mem (getStrings env key d) s), by decide⟩

/-- C4: `apiVersion` formats the coerced version from its options (default
version `1.0.0`, default prefix `v`): bare major by default, `major.minor`
with `minor`, `major.minor.patch` with `patch`, and `patch` takes priority
over `minor`. -/
theorem apiVersion_granularity :
    apiVersion (storeOf []) {} = Except.ok "v1" ∧
    apiVersion (storeOf []) { version := some "2.3.4" } = Except.ok "v2" ∧
    apiVersion (storeOf []) { version := some "2.3.4", minor := some true } = Except.ok "v2.3" ∧
    apiVersion (storeOf []) { version := some "2.3.4", patch := some true } =
      Except.ok "v2.3.4" ∧
    apiVersion (storeOf []) { version := some "2.3.4", minor := some true, patch := some true } =
      Except.ok "v2.3.4" ∧
    ∀ (env : Store) (ver pf : Option String) (mj : Option Bool),
      apiVersion env ⟨ver, pf, mj, some true, some true⟩ =
        apiVersion env ⟨ver, pf, mj, some false, some true⟩ := by
  refine ⟨rfl, rfl, rfl, rfl, rfl, ?_⟩
  intro env ver pf mj
  cases h : coerceSemver (toStringJS (getString env "API_VERSION" (.vstr (ver.getD "1.0.0")))) with
  | none => simp [apiVersion, h]
  | some t =>
      obtain ⟨ma, mi, pa⟩ := t
      simp [apiVersion, h]

/-- C2 counterexample: with `API_VERSION` set to the uncoercible `"beta"`,
`apiVersion` raises a TypeError (reading `.major` of `null`, modelled as
`Except.error`) instead of returning a sentinel value to the caller. -/
theorem apiVersion_throws_counterexample :
    apiVersion (storeOf [("API_VERSION", "beta")]) {} =
      Except.error "TypeError: cannot read property major of null" := rfl

/-- C2 amended: `mapToNumber`, hence `getNumber`, yields the `NaN` sentinel
for an unparseable numeric string instead of throwing, and the semver
coercion itself yields a `none`/`null` sentinel instead of throwing — but
`apiVersion` dereferences that sentinel, so it raises a TypeError whenever
the resolved version string is uncoercible. -/
theorem coercion_sentinels_and_apiVersion_throw (env : Store) (key : String) (d : JSVal)
    (s : String) (hs : env key = some s) (hnan : toNumberJS (.vstr s) = .nan) :
    getNumber env key d = .vnum .nan ∧
    coerceSemver "beta" = none ∧
    ∀ optns : ApiOptns,
      coerceSemver (toStringJS (getString env "API_VERSION"
        (.vstr (optns.version.getD "1.0.0")))) = none →
      apiVersion env optns =
        Except.error "TypeError: cannot read property major of null" := by
  refine ⟨?_, rfl, fun optns hco => ?_⟩
  · have hne : s ≠ "" := by
      intro h0
      subst h0
      simp [toNumberJS, strToNumber, trimChars] at hnan
    simp [getNumber, get, hs, truthy, hne, mapToNumber, hnan]
  · simp [apiVersion, hco]

/-- C2 amended witness: `Store['N'] = "abc"` makes `getNumber` yield `NaN`,
and `Store['API_VERSION'] = "beta"` makes `apiVersion` raise. -/
theorem coercion_sentinels_and_apiVersion_throw_witness :
    getNumber (storeOf [("N", "abc"), ("API_VERSION", "beta")]) "N" .undefined = .vnum .nan ∧
    apiVersion (storeOf [("N", "abc"), ("API_VERSION", "beta")]) {} =
      Except.error "TypeError: cannot read property major of null" := by
  have h := coercion_sentinels_and_apiVersion_throw
    (storeOf [("N", "abc"), ("API_VERSION", "beta")]) "N" .undefined "abc" (by decide) (by decide)
  exact ⟨h.1, h.2.2 {} (by decide)⟩

end Env
